import Mathlib

/-!
Shallow embedding of the NeoMutt logging dispatcher (`src/mutt/logging.c`)
and proofs of the spec's claims about it.

Modelling conventions:
* C strings (`char *`) become `Option String` when they may be NULL, `String`
  otherwise.  C `int` becomes `Int`.
* The process-wide globals (`LogFileFP`, `LogFileName`, `LogFileLevel`,
  `LogFileVersion`, `LogQueue`, `LogQueueCount`, `LogQueueMax`) become explicit
  state records (`FileState`, `QState`) threaded through the functions.
* An open `FILE *` handle is modelled as `Option String`: `some content` is an
  open handle together with the text written through it so far; `none` is NULL.
* `errno` and the fact that C library calls may overwrite it are modelled by a
  small state `W`: the current `errno` plus an oracle list supplying the value
  `errno` has after each successive library call (see `libc`).
* The variadic `printf`-style calling convention is modelled by a format string
  plus a list of string arguments, expanded by `renderFmt` (only the `%s`
  directive is interpreted, which is all the repository's own calls rely on).
* OS services (`strftime`/`localtime`, `time(NULL)`, `strerror`) are
  parameters, bundled in `Env`; `fopen` success is a `Bool` oracle argument.
-/

/-- Environment of OS services used by `logging.c`: the current wall-clock time
(`time(NULL)`), the two `strftime` formats, and `strerror`. -/
structure Env where
  now : Int
  tsFmt : Int → String
  hmsFmt : Int → String
  strerror : Int → String

/-- The `errno` state: its current value plus an oracle list giving the value
installed by each successive C library call (empty list: calls leave it
alone).  The spec notes that formatting and I/O "may itself perform OS
operations that clobber the error code"; the oracle models exactly that. -/
structure W where
  errno : Int
  clobbers : List Int
deriving DecidableEq, Repr

/-- One C library call: `errno` takes the next oracle value, if any. -/
def libc (w : W) : W :=
  match w.clobbers with
  | [] => w
  | c :: cs => ⟨c, cs⟩

/-- Modelled from the spec (logging.h is not under src/): log level constants,
Glossary: `PERROR=−3, ERROR=−2, WARNING=−1, MESSAGE=0, DEBUG1..5 = 1..5`. -/
def LL_PERROR : Int := -3

/-- Modelled from the spec: `LL_ERROR = -2`. -/
def LL_ERROR : Int := -2

/-- Modelled from the spec: `LL_WARNING = -1`. -/
def LL_WARNING : Int := -1

/-- Modelled from the spec: `LL_MESSAGE = 0`. -/
def LL_MESSAGE : Int := 0

/-- logging.c line 65: `const char *LevelAbbr = "PEWM12345";`. -/
def LevelAbbr : String := "PEWM12345"

/-- The C expression `LevelAbbr[level + 3]`.  For levels outside
`[-3, 5]` the C read is out of bounds (undefined); the model totalises it
with `'?'`.  All claims use in-range levels. -/
def levelAbbr (level : Int) : Char :=
  LevelAbbr.data.getD (level + 3).toNat '?'

/-- Modelled from the spec ("bounded buffer", string2.h is not under src/):
`#define LONG_STRING 1024`, the size of the queue sink's formatting buffer. -/
def LONG_STRING : Nat := 1024

/-- `strTake s n` is the first `n` characters of `s` (the effect of writing
`s` into a buffer that only has room for `n` characters plus a NUL). -/
def strTake (s : String) (n : Nat) : String :=
  ⟨s.data.take n⟩

/-- Expansion of a `printf`-style format string against a list of string
arguments (`vsnprintf`/`vfprintf`).  Only the `%s` directive is interpreted:
the repository's own format uses (`"%s"` during replay) never rely on other
directives, and claim C6 is precisely that replay substitutes the stored
message wholesale without re-scanning it. -/
def renderFmt : List Char → List String → String
  | [], _ => ""
  | '%' :: 's' :: rest, a :: args => a ++ renderFmt rest args
  | c :: rest, args => String.singleton c ++ renderFmt rest args

/-- struct LogLine (logging.h, modelled from the spec's Record data model):
timestamp, source file/line, function, level, fully formatted message. -/
structure LogLine where
  time : Int
  file : Option String
  line : Int
  function : Option String
  level : Int
  message : String
deriving DecidableEq, Repr

/-- The queue sink's globals: `LogQueue` (STAILQ, modelled as a list, head =
oldest), `LogQueueCount` and `LogQueueMax` (C ints). -/
structure QState where
  q : List LogLine
  count : Int
  max : Int
deriving DecidableEq, Repr

/-- logging.c lines 278-291, `log_queue_add`: insert at the tail
(`STAILQ_INSERT_TAIL`); if `LogQueueMax > 0 && LogQueueCount >= LogQueueMax`
remove the head (`STAILQ_REMOVE_HEAD`, count unchanged), else increment the
count.  Returns `LogQueueCount`. -/
def log_queue_add (ll : LogLine) (s : QState) : Int × QState :=
  let q1 := s.q ++ [ll]
  if 0 < s.max ∧ s.max ≤ s.count then
    (s.count, { s with q := q1.tail })
  else
    (s.count + 1, { s with q := q1, count := s.count + 1 })

/-- logging.c lines 299-304, `log_queue_set_max_size`: negative sizes clamp
to 0 (unlimited). -/
def log_queue_set_max_size (size : Int) (s : QState) : QState :=
  { s with max := if size < 0 then 0 else size }

/-- logging.c lines 311-324, `log_queue_empty`: free every LogLine and reset
the count to 0. -/
def log_queue_empty (s : QState) : QState :=
  { s with q := [], count := 0 }

/-- Iterated `log_queue_add` (the queue state after a burst of inserts). -/
def addAll : List LogLine → QState → QState
  | [], s => s
  | r :: rs, s => addAll rs (log_queue_add r s).2

/-- The file sink's globals (logging.c lines 74-77): `LogFileFP` (the open
handle, `some content` = open with `content` written through it so far),
`LogFileName`, `LogFileLevel`, `LogFileVersion`; plus the ghost field
`lastOpenOk`, true iff the most recent `log_file_open` call returned 0
(needed only to state the spec's "the open succeeded" invariant). -/
structure FileState where
  fp : Option String
  name : Option String
  level : Int
  version : Option String
  lastOpenOk : Bool
deriving DecidableEq, Repr

/-- Startup state: all four globals are NULL / 0. -/
def initFileState : FileState :=
  { fp := none, name := none, level := 0, version := none, lastOpenOk := false }

/-- C `strcmp`: lexicographic comparison by character code, 0 iff equal. -/
def strcmpChars : List Char → List Char → Int
  | [], [] => 0
  | [], _ :: _ => -1
  | _ :: _, [] => 1
  | a :: as, b :: bs =>
    if a.toNat < b.toNat then -1
    else if b.toNat < a.toNat then 1
    else strcmpChars as bs

/-- Modelled from the spec (string2.h is not under src/): mutt's NULL-safe
`strcmp(NONULL(a), NONULL(b))` — NULL compares as the empty string.  The code
comment at logging.c line 120 ("also handles both being NULL") documents this
behaviour.  Only the sign of the result matters to callers. -/
def mutt_str_strcmp (a b : Option String) : Int :=
  strcmpChars (a.getD "").data (b.getD "").data

/-- Modelled from the spec (string2.h is not under src/): `mutt_str_replace`
frees the old string and stores a copy of the new one. -/
def mutt_str_replace (file : Option String) (st : FileState) : FileState :=
  { st with name := file }

/-- logging.c lines 178-187, `log_file_close`: no-op when not open, otherwise
write the closing banner into the file and release the handle (the handle —
and with it the modelled content — is dropped; `verbose` only controls a
`mutt_message` to the user, an external collaborator). -/
def log_file_close (_verbose : Bool) (st : FileState) : FileState :=
  match st.fp with
  | none => st
  | some _ => { st with fp := none }

/-- The startup banner of logging.c lines 210-211:
`[<timestamp>] NeoMutt<version> debugging at level <level>\n`
(`NONULL(LogFileVersion)` prints NULL as the empty string). -/
def fileBanner (env : Env) (st : FileState) : String :=
  "[" ++ env.tsFmt env.now ++ "] NeoMutt" ++ (st.version.getD "") ++
    " debugging at level " ++ toString st.level ++ "\n"

/-- logging.c lines 198-215, `log_file_open`: fail (-1) if no filename is set
— note this early return does NOT close an already-open handle; otherwise
close any open handle silently, then `fopen` (its success is the oracle
argument `fopenOk`): on failure the handle stays NULL and -1 is returned, on
success the banner is written and 0 returned. -/
def log_file_open (env : Env) (_verbose : Bool) (fopenOk : Bool) (st : FileState) :
    Int × FileState :=
  match st.name with
  | none => (-1, { st with lastOpenOk := false })
  | some _ =>
    let st1 := if st.fp.isSome then log_file_close false st else st
    if fopenOk then
      (0, { st1 with fp := some (fileBanner env st1), lastOpenOk := true })
    else
      (-1, { st1 with fp := none, lastOpenOk := false })

/-- logging.c lines 118-132, `log_file_set_filename`: no-op returning 0 when
the name is unchanged (NULL-safe comparison); otherwise store the new name,
return -1 if the sink is not running yet, else re-open (discarding the open's
own result) and return 0. -/
def log_file_set_filename (env : Env) (file : Option String) (fopenOk : Bool)
    (st : FileState) : Int × FileState :=
  if mutt_str_strcmp st.name file = 0 then (0, st)
  else
    let st1 := mutt_str_replace file st
    if st1.fp.isNone then (-1, st1)
    else (0, (log_file_open env true fopenOk st1).2)

/-- logging.c lines 142-160, `log_file_set_level`: -1 when out of 0..5; no-op
at the current level; otherwise store the level, then close (level 0), or
just confirm to the user (already open), or open (`fopenOk` oracle). -/
def log_file_set_level (env : Env) (level : Int) (fopenOk : Bool) (st : FileState) :
    Int × FileState :=
  if level < 0 ∨ level > 5 then (-1, st)
  else if level = st.level then (0, st)
  else
    let st1 := { st with level := level }
    if level = 0 then (0, log_file_close true st1)
    else if st1.fp.isSome then (0, st1)
    else (0, (log_file_open env true fopenOk st1).2)

/-- logging.c lines 169-172, `log_file_set_version`. -/
def log_file_set_version (version : Option String) (st : FileState) : FileState :=
  { st with version := version }

/-- logging.c lines 237-269, `log_disp_file`: return 0 when the sink is closed
or the level is outside `[LL_PERROR, LogFileLevel]`; otherwise capture
`errno`, write `[<timestamp>]<abbrev> <function>() <message>` and, for
`LL_PERROR`, `: <strerror(err)>\n`, or a bare newline for `level <= 0`.
Return-value accounting mirrors the source faithfully: the prefix `fprintf`'s
count is accumulated by `ret +=` but then DISCARDED by the plain assignment
`ret = vfprintf(...)` (line 255), and the `LL_PERROR` suffix `fprintf`'s
count is never added; only the bare-newline branch does `ret++`. -/
def log_disp_file (env : Env) (stamp : Int) (_file : Option String) (_line : Int)
    (function : Option String) (level : Int) (fmt : String) (args : List String)
    (st : FileState) (w : W) : Int × FileState × W :=
  match st.fp with
  | none => (0, st, w)
  | some content =>
    if level < LL_PERROR ∨ level > st.level then (0, st, w)
    else
      let err := w.errno
      let fn := function.getD "UNKNOWN"
      let ts := env.tsFmt (if stamp = 0 then env.now else stamp)
      let hdr := "[" ++ ts ++ "]<" ++ (levelAbbr level).toString ++ "> " ++ fn ++ "() "
      let w1 := libc w
      let rendered := renderFmt fmt.data args
      let ret : Int := rendered.length
      let w2 := libc w1
      if level = LL_PERROR then
        (ret, { st with
          fp := some (content ++ hdr ++ rendered ++ ": " ++ env.strerror err ++ "\n") },
          libc w2)
      else if level ≤ 0 then
        (ret + 1, { st with fp := some (content ++ hdr ++ rendered ++ "\n") }, libc w2)
      else
        (ret, { st with fp := some (content ++ hdr ++ rendered) }, w2)

/-- logging.c lines 392-421, `log_disp_queue`: capture `errno` first, expand
the format into a `LONG_STRING` buffer (`vsnprintf` truncates but returns the
full intended length); for `LL_PERROR` append `: <strerror(err)>` with
`snprintf` (again counting the intended length) and reclassify the stored
level as `LL_ERROR`; store the LogLine (current time substituted for a zero
stamp) via `log_queue_add`; return the accumulated intended length.
The `snprintf(buf + ret, sizeof(buf) - ret, ...)` call is undefined in C when
`ret >= sizeof(buf)`; the model totalises that case by leaving the buffer
unchanged (no claim depends on it). -/
def log_disp_queue (env : Env) (stamp : Int) (file : Option String) (line : Int)
    (function : Option String) (level : Int) (fmt : String) (args : List String)
    (s : QState) (w : W) : Int × QState × W :=
  let err := w.errno
  let rendered := renderFmt fmt.data args
  let ret : Int := rendered.length
  let buf := strTake rendered (LONG_STRING - 1)
  let w1 := libc w
  let out :=
    if level = LL_PERROR then
      let suffix := ": " ++ env.strerror err
      let buf2 := if ret + 1 ≤ (LONG_STRING : Int) then
          buf ++ strTake suffix (LONG_STRING - 1 - rendered.length)
        else buf
      (ret + suffix.length, buf2, LL_ERROR, libc w1)
    else (ret, buf, level, w1)
  let ll : LogLine :=
    ⟨(if stamp ≠ 0 then stamp else env.now), file, line, function, out.2.2.1, out.2.1⟩
  let s' := (log_queue_add ll s).2
  (out.1, s', out.2.2.2)

/-- logging.c lines 333-342, `log_queue_flush`: call the target dispatcher for
every LogLine in FIFO order as
`disp(ll->time, ll->file, ll->line, ll->function, ll->level, "%s", ll->message)`
(return values discarded), then `log_queue_empty`.  The model returns the list
of dispatch invocations performed, in order. -/
structure DispCall where
  time : Int
  file : Option String
  line : Int
  function : Option String
  level : Int
  fmt : String
  args : List String
deriving DecidableEq, Repr

/-- The replay invocation `log_queue_flush` makes for one LogLine. -/
def mkReplayCall (ll : LogLine) : DispCall :=
  ⟨ll.time, ll.file, ll.line, ll.function, ll.level, "%s", [ll.message]⟩

/-- logging.c lines 333-342, `log_queue_flush` (see `DispCall`). -/
def log_queue_flush (s : QState) : List DispCall × QState :=
  (s.q.map mkReplayCall, log_queue_empty s)

/-- The line `log_queue_save` writes for one LogLine (logging.c lines
364-367): `[<HH:MM:SS>]<abbrev> <message>`, newline only for `level <= 0`. -/
def saveLine (env : Env) (ll : LogLine) : String :=
  "[" ++ env.hmsFmt ll.time ++ "]<" ++ (levelAbbr ll.level).toString ++ "> " ++
    ll.message ++ (if ll.level ≤ 0 then "\n" else "")

/-- logging.c lines 354-372, `log_queue_save`: return 0 at once for a NULL
destination; otherwise write `saveLine` for every LogLine, counting the
lines.  The queue state is threaded through untouched, mirroring the
read-only `STAILQ_FOREACH`. -/
def log_queue_save (env : Env) (fp : Bool) (s : QState) : Int × List String × QState :=
  if fp = false then (0, [], s)
  else
    let r := s.q.foldl (fun acc ll => (acc.1 + 1, acc.2 ++ [saveLine env ll])) (0, [])
    (r.1, r.2, s)

/-- logging.c lines 441-499, `log_disp_stderr`: filter against the FILE
sink's threshold `LogFileLevel`; expand the format (`vsnprintf`, which may
clobber `errno`); forward the expanded text to `log_disp_file` with format
`"%s"` (result discarded); only THEN read `errno` (source line 457 — after
the formatting work); decorate with ANSI colour when `tty`; `fputs` the text
(count not added to `ret`, per the source); append `: <strerror(err)>` for
`LL_PERROR` and a newline for `level < 1`.  Returns
(ret, file state after the forward, text written to stderr, errno state). -/
def log_disp_stderr (env : Env) (tty : Bool) (stamp : Int) (file : Option String)
    (line : Int) (function : Option String) (level : Int) (fmt : String)
    (args : List String) (st : FileState) (w : W) : Int × FileState × String × W :=
  if level < LL_PERROR ∨ level > st.level then (0, st, "", w)
  else
    let rendered := renderFmt fmt.data args
    let buf := strTake rendered (LONG_STRING - 1)
    let ret : Int := rendered.length
    let w1 := libc w
    let fwd := log_disp_file env stamp file line function level "%s" [buf] st w1
    let st1 := fwd.2.1
    let w2 := fwd.2.2
    let err := w2.errno
    let colour : Int :=
      if tty then
        if level = LL_PERROR ∨ level = LL_ERROR then 31
        else if level = LL_WARNING then 33 else 0
      else 0
    let a :=
      if 0 < colour then
        let seq := "\x1b[1;" ++ toString colour ++ "m"
        (ret + seq.length, seq, libc w2)
      else (ret, "", w2)
    let b := (a.1, a.2.1 ++ buf, libc a.2.2)
    let c :=
      if level = LL_PERROR then
        let seq := ": " ++ env.strerror err
        (b.1 + seq.length, b.2.1 ++ seq, libc b.2.2)
      else b
    let d :=
      if 0 < colour then
        (c.1 + ("\x1b[0m" : String).length, c.2.1 ++ "\x1b[0m", libc c.2.2)
      else c
    let e :=
      if level < 1 then (d.1 + 1, d.2.1 ++ "\n", libc d.2.2)
      else d
    (e.1, st1, e.2.1, e.2.2)

/-- An operation on the file sink, as listed by the spec's invariant claim:
setFilename, setLevel, open, close, dispatch.  Operations that may call
`log_file_open` carry the `fopen` success oracle; dispatch carries its
arguments and the `errno` state at its entry. -/
inductive LogOp where
  | setFilename (file : Option String) (fopenOk : Bool)
  | setLevel (level : Int) (fopenOk : Bool)
  | openF (verbose : Bool) (fopenOk : Bool)
  | close (verbose : Bool)
  | dispatch (stamp : Int) (file : Option String) (line : Int)
      (function : Option String) (level : Int) (fmt : String) (args : List String) (w : W)
deriving DecidableEq, Repr

/-- Effect of one operation on the file sink state (return values dropped). -/
def logStep (env : Env) (st : FileState) : LogOp → FileState
  | .setFilename f ok => (log_file_set_filename env f ok st).2
  | .setLevel l ok => (log_file_set_level env l ok st).2
  | .openF v ok => (log_file_open env v ok st).2
  | .close v => log_file_close v st
  | .dispatch stamp f line fn lvl fmt args w =>
      (log_disp_file env stamp f line fn lvl fmt args st w).2.1

/-- The file sink state after a sequence of operations. -/
def runOps (env : Env) (st : FileState) : List LogOp → FileState
  | [] => st
  | op :: rest => runOps env (logStep env st op) rest

/-- `true` unless `op` is a `setFilename` with a NULL name and the sink is
currently open (the one situation claim C1's counterexample exhibits). -/
def opAllowed (st : FileState) : LogOp → Bool
  | .setFilename none _ => !st.fp.isSome
  | _ => true

/-- `true` iff no `setFilename` with a NULL name is executed while the sink is
open, along the run of `ops` from `st`. -/
def goodOps (env : Env) (st : FileState) : List LogOp → Bool
  | [] => true
  | op :: rest => opAllowed st op && goodOps env (logStep env st op) rest

/-- The spec's File Sink invariant: the handle is non-null only if the
filename is non-null and the most recent open succeeded. -/
def fileInvariant (st : FileState) : Prop :=
  st.fp.isSome → (st.name.isSome ∧ st.lastOpenOk = true)

instance : DecidablePred fileInvariant := fun st => by
  unfold fileInvariant; infer_instance

/-- A concrete environment used for witnesses and counterexamples. -/
def sampleEnv : Env :=
  { now := 100, tsFmt := fun _ => "TS", hmsFmt := fun _ => "HMS",
    strerror := fun e => "E" ++ toString e }

/-- A file sink that is open (banner already consumed), threshold 0. -/
def openSt0 : FileState :=
  { fp := some "", name := some "log", level := 0, version := none, lastOpenOk := true }

/-- A file sink that is open (banner already consumed), threshold 1. -/
def openSt1 : FileState :=
  { fp := some "", name := some "log", level := 1, version := none, lastOpenOk := true }

/-- Concrete LogLines for witnesses. -/
def llA : LogLine := ⟨1, none, 0, none, 0, "A"⟩

/-- Concrete LogLine B. -/
def llB : LogLine := ⟨2, none, 0, none, 0, "B"⟩

/-- Concrete LogLine C. -/
def llC : LogLine := ⟨3, none, 0, none, 0, "C"⟩

/-- Concrete LogLine D. -/
def llD : LogLine := ⟨4, none, 0, none, 0, "D"⟩

/-- `strTake` is the identity when the string already fits. -/
theorem strTake_of_length_le (s : String) (n : Nat) (h : s.length ≤ n) :
    strTake s n = s := by
  cases s with
  | mk l => exact congrArg String.mk (List.take_of_length_le h)

/-- Once the queue is at or above a positive maximum, `log_queue_add` keeps
both the count and the maximum unchanged, so any burst of inserts leaves the
count where it was. -/
theorem addAll_full_count (rs : List LogLine) : ∀ s : QState,
    0 < s.max → s.max ≤ s.count →
    (addAll rs s).count = s.count ∧ (addAll rs s).max = s.max := by
  induction rs with
  | nil => intro s _ _; exact ⟨rfl, rfl⟩
  | cons r rest ih =>
    intro s h1 h2
    have hstep : (log_queue_add r s).2 = { s with q := (s.q ++ [r]).tail } := by
      simp [log_queue_add, if_pos (And.intro h1 h2)]
    have := ih { s with q := (s.q ++ [r]).tail } h1 h2
    simpa [addAll, hstep] using this

/-- Characterisation of a burst of `log_queue_add`s against a positive
maximum `N`, starting from any well-formed (`count` = length) state that is
within capacity: the queue ends up holding the last `N` of the old-plus-new
records (`drop` of the overflow) and the count ends at `min N total`. -/
theorem addAll_bounded (N : Nat) (rs : List LogLine) : ∀ (s : QState),
    s.max = (N : Int) → 0 < N → s.count = (s.q.length : Int) → s.q.length ≤ N →
    (addAll rs s).q = (s.q ++ rs).drop (s.q.length + rs.length - N) ∧
    (addAll rs s).count = ((min N (s.q.length + rs.length) : Nat) : Int) ∧
    (addAll rs s).max = (N : Int) := by
  induction rs with
  | nil =>
    intro s hmax hN hcount hlen
    refine ⟨?_, ?_, by simpa [addAll] using hmax⟩
    · simp [addAll, Nat.sub_eq_zero_of_le hlen]
    · simp [addAll, Nat.min_eq_right hlen, hcount]
  | cons r rest ih =>
    intro s hmax hN hcount hlen
    rcases Nat.lt_or_ge s.q.length N with hlt | hge
    · -- below capacity: plain append, count increments
      have hcond : ¬(0 < s.max ∧ s.max ≤ s.count) := by
        rw [hmax, hcount]
        intro hc
        have h2 : (N : Int) ≤ (s.q.length : Int) := hc.2
        have : N ≤ s.q.length := by exact_mod_cast h2
        omega
      have hstep : addAll (r :: rest) s
          = addAll rest { s with q := s.q ++ [r], count := s.count + 1 } := by
        simp [addAll, log_queue_add, if_neg hcond]
      obtain ⟨ih1, ih2, ih3⟩ := ih { s with q := s.q ++ [r], count := s.count + 1 }
        (by simpa using hmax) hN
        (by simp [hcount])
        (by simp; omega)
      refine ⟨?_, ?_, by rw [hstep]; exact ih3⟩
      · rw [hstep, ih1]
        simp only [List.append_assoc, List.singleton_append, List.cons_append,
          List.length_append, List.length_cons]
        congr 1
        simp
        omega
      · rw [hstep, ih2]
        congr 1
        simp
        omega
    · -- at capacity: the head is evicted, count stays
      have hfull : s.q.length = N := le_antisymm hlen hge
      have hcond : 0 < s.max ∧ s.max ≤ s.count := by
        rw [hmax, hcount, hfull]
        exact ⟨by exact_mod_cast hN, le_refl _⟩
      cases hq : s.q with
      | nil => rw [hq] at hfull; simp at hfull; omega
      | cons hd tl =>
        have hN' : tl.length + 1 = N := by rw [hq] at hfull; simpa using hfull
        have hstep : addAll (r :: rest) s = addAll rest { s with q := tl ++ [r] } := by
          simp [addAll, log_queue_add, if_pos hcond, hq]
        obtain ⟨ih1, ih2, ih3⟩ := ih { s with q := tl ++ [r] }
          (by simpa using hmax) hN
          (by rw [hcount, hq]; simp)
          (by simp; omega)
        refine ⟨?_, ?_, by rw [hstep]; exact ih3⟩
        · rw [hstep, ih1]
          dsimp only
          simp only [List.append_assoc, List.singleton_append, List.cons_append,
            List.length_append, List.length_cons, List.length_nil, List.nil_append,
            Nat.zero_add]
          have hL : tl.length + 1 + rest.length - N = rest.length := by omega
          have hR : tl.length + 1 + (rest.length + 1) - N = rest.length + 1 := by omega
          rw [hL, hR, List.drop_succ_cons]
        · rw [hstep, ih2]
          congr 1
          simp
          omega

/-- C4: starting from an empty queue with `maxSize = N > 0`, inserting `N+k`
records (`k ≥ 1`) leaves exactly `N` records — the most recently inserted
`N`, in insertion order (`rs.drop k`; the oldest are evicted first) — with
the count at `N`; and a single `log_queue_add` evicts nothing (plain tail
append, count incremented) unless `maxSize > 0` and `count ≥ maxSize` at
insertion time. -/
theorem C4_queue_eviction (N k : Nat) (rs : List LogLine) (hN : 0 < N)
    (hk : 1 ≤ k) (hlen : rs.length = N + k) :
    (addAll rs ⟨[], 0, (N : Int)⟩).q = rs.drop k ∧
    (addAll rs ⟨[], 0, (N : Int)⟩).count = (N : Int) ∧
    (∀ (r : LogLine) (s : QState), ¬(0 < s.max ∧ s.max ≤ s.count) →
      log_queue_add r s = (s.count + 1, { s with q := s.q ++ [r], count := s.count + 1 })) := by
  obtain ⟨h1, h2, _⟩ := addAll_bounded N rs ⟨[], 0, (N : Int)⟩ rfl hN (by simp) (by simp)
  refine ⟨?_, ?_, ?_⟩
  · rw [h1]
    simp only [List.nil_append, List.length_nil, Nat.zero_add]
    congr 1
    omega
  · rw [h2]
    congr 1
    simp only [List.length_nil, Nat.zero_add, hlen]
    omega
  · intro r s h
    simp [log_queue_add, if_neg h]

/-- C4 witness: the spec's own scenario — `maxSize = 2`, insert A, B, C; the
queue holds [B, C] with count 2. -/
theorem C4_queue_eviction_witness :
    (addAll [llA, llB, llC] ⟨[], 0, 2⟩).q = [llB, llC] ∧
    (addAll [llA, llB, llC] ⟨[], 0, 2⟩).count = 2 := by
  have h := C4_queue_eviction 2 1 [llA, llB, llC] (by decide) (by decide) (by decide)
  exact ⟨h.1, h.2.1⟩

/-- C10: for EVERY queue state, `log_queue_add` never decreases the count;
for every state with `maxSize > 0` and the count at or above it, the add
removes exactly the oldest record (head of `queue ++ [r]`) and keeps the
count constant; hence after `log_queue_set_max_size` lowers the maximum `m`
strictly below the current count, any sequence of subsequent inserts leaves
the count at its current value — the queue never shrinks to the new,
smaller maximum.  (The hypotheses `0 < m`, `m < s.count` state that
lowering and scope only the `setMaxSize` conjunct; the first two conjuncts
quantify over all states `t`.) -/
theorem C10_count_never_decreases (s : QState) (m : Int)
    (rs : List LogLine) (h1 : 0 < m) (h2 : m < s.count) :
    (∀ (r : LogLine) (t : QState), t.count ≤ (log_queue_add r t).2.count) ∧
    (∀ (r : LogLine) (t : QState), 0 < t.max → t.max ≤ t.count →
      log_queue_add r t = (t.count, { t with q := (t.q ++ [r]).tail })) ∧
    (addAll rs (log_queue_set_max_size m s)).count = s.count := by
  refine ⟨?_, ?_, ?_⟩
  · intro r t
    by_cases h : 0 < t.max ∧ t.max ≤ t.count
    · simp [log_queue_add, if_pos h]
    · simp [log_queue_add, if_neg h]
  · intro r t ha hb
    simp [log_queue_add, if_pos (And.intro ha hb)]
  · have hmax : (log_queue_set_max_size m s).max = m := by
      simp [log_queue_set_max_size]
      omega
    have := addAll_full_count rs (log_queue_set_max_size m s)
      (by rw [hmax]; exact h1)
      (by rw [hmax]; simpa [log_queue_set_max_size] using le_of_lt h2)
    simpa [log_queue_set_max_size] using this.1

/-- C10 witness: the very first insert into an empty queue does not decrease
the count; an eviction at `max = 1, count = 1` keeps the count at 1 and
drops the oldest record; and with two records queued (count 2) and the
maximum lowered to 1, two further inserts leave the count at 2. -/
theorem C10_count_never_decreases_witness :
    0 ≤ (log_queue_add llA ⟨[], 0, 0⟩).2.count ∧
    log_queue_add llB ⟨[llA], 1, 1⟩ = (1, ⟨[llB], 1, 1⟩) ∧
    (addAll [llC, llD] (log_queue_set_max_size 1 ⟨[llA, llB], 2, 3⟩)).count = 2 := by
  have h := C10_count_never_decreases ⟨[llA, llB], 2, 3⟩ 1 [llC, llD]
    (by decide) (by decide)
  refine ⟨h.1 llA ⟨[], 0, 0⟩, ?_, h.2.2⟩
  rw [h.2.1 llB ⟨[llA], 1, 1⟩ (by decide) (by decide)]
  decide

/-- A `"%s"` format expands to its single argument verbatim: the stored
message is substituted wholesale, never re-scanned for directives. -/
theorem renderFmt_percent_s (m : String) : renderFmt "%s".data [m] = m := by
  show m ++ renderFmt [] [] = m
  simp [renderFmt]

/-- C6: `log_queue_flush` replays exactly one dispatch call per queued
record, in FIFO order, passing the stored message verbatim through a `"%s"`
format (never re-interpreted); it then empties the queue unconditionally —
by construction the emitted call list and the final state are independent of
the replayed calls' return values (the C source discards `disp`'s result) —
and a second flush with no intervening inserts replays nothing and leaves
the queue empty. -/
theorem C6_flush_replay_idempotent (s : QState) :
    (log_queue_flush s).1 = s.q.map mkReplayCall ∧
    (∀ ll : LogLine,
      (mkReplayCall ll).fmt = "%s" ∧
      (mkReplayCall ll).args = [ll.message] ∧
      renderFmt ((mkReplayCall ll).fmt.data) ((mkReplayCall ll).args) = ll.message) ∧
    (log_queue_flush s).2 = log_queue_empty s ∧
    ((log_queue_flush s).2).q = [] ∧
    ((log_queue_flush s).2).count = 0 ∧
    log_queue_flush ((log_queue_flush s).2) = ([], (log_queue_flush s).2) := by
  refine ⟨rfl, ?_, rfl, rfl, rfl, rfl⟩
  intro ll
  exact ⟨rfl, rfl, renderFmt_percent_s ll.message⟩

/-- The counting fold of `log_queue_save`: starting from any accumulator it
adds one line per record, in order. -/
theorem save_foldl (env : Env) (q : List LogLine) : ∀ (acc : Int × List String),
    (q.foldl (fun acc ll => (acc.1 + 1, acc.2 ++ [saveLine env ll])) acc)
      = (acc.1 + q.length, acc.2 ++ q.map (saveLine env)) := by
  induction q with
  | nil => intro acc; simp
  | cons ll rest ih =>
    intro acc
    rw [List.foldl_cons, ih]
    simp
    ring

/-- C7: `log_queue_save` leaves the queue state completely unchanged (same
records, same count, same maximum) for every destination; on a valid
destination it writes one `saveLine` per record and returns the number of
records; on an invalid (NULL) destination it returns 0 at once and performs
no writes; on an empty queue it returns 0 and performs no writes. -/
theorem C7_save_frame (env : Env) (fp : Bool) (s : QState) :
    (log_queue_save env fp s).2.2 = s ∧
    log_queue_save env false s = (0, [], s) ∧
    log_queue_save env fp { s with q := [] } = (0, [], { s with q := [] }) ∧
    (log_queue_save env true s).1 = (s.q.length : Int) ∧
    (log_queue_save env true s).2.1 = s.q.map (saveLine env) := by
  refine ⟨?_, rfl, ?_, ?_, ?_⟩
  · cases fp <;> simp [log_queue_save, save_foldl]
  · cases fp <;> simp [log_queue_save]
  · simp [log_queue_save, save_foldl]
  · simp [log_queue_save, save_foldl]

/-- C5: a Queue Sink dispatch with `level = LL_PERROR` and outstanding OS
error code `w.errno` stores a record whose level is `LL_ERROR` (not
`LL_PERROR`) and whose message ends in `strerror` of that entry errno (the
code captures `errno` before formatting).  `hwf` says the count matches the
queue length (always true of reachable states); `hfit` says the formatted
text plus the error suffix fit the `LONG_STRING` buffer (beyond it the C
code truncates — and in fact overruns its buffer, see `log_disp_queue`). -/
theorem C5_perror_roundtrip (env : Env) (stamp : Int) (file : Option String)
    (line : Int) (function : Option String) (fmt : String) (args : List String)
    (s : QState) (w : W)
    (hwf : s.count = (s.q.length : Int))
    (hfit : (renderFmt fmt.data args).length +
      (": " ++ env.strerror w.errno).length + 1 ≤ LONG_STRING) :
    ∃ ll : LogLine,
      ((log_disp_queue env stamp file line function LL_PERROR fmt args s w).2.1).q.getLast?
        = some ll ∧
      ll.level = LL_ERROR ∧
      ∃ p : String, ll.message = p ++ env.strerror w.errno := by
  set rendered := renderFmt fmt.data args with hrendered
  set sfx := ": " ++ env.strerror w.errno with hsfx
  have h1 : strTake rendered (LONG_STRING - 1) = rendered :=
    strTake_of_length_le _ _ (by unfold LONG_STRING at hfit ⊢; omega)
  have h2 : strTake sfx (LONG_STRING - 1 - rendered.length) = sfx :=
    strTake_of_length_le _ _ (by unfold LONG_STRING at hfit ⊢; omega)
  have hcond : ((rendered.length : Int) + 1 ≤ (LONG_STRING : Int)) := by
    have : rendered.length + 1 ≤ LONG_STRING := by
      unfold LONG_STRING at hfit ⊢; omega
    exact_mod_cast this
  have hstate : (log_disp_queue env stamp file line function LL_PERROR fmt args s w).2.1
      = (log_queue_add ⟨(if stamp ≠ 0 then stamp else env.now), file, line, function,
          LL_ERROR, rendered ++ sfx⟩ s).2 := by
    simp only [log_disp_queue, ← hrendered, ← hsfx, h1, h2, if_pos rfl, if_pos hcond,
      if_true, eq_self_iff_true]
  refine ⟨⟨(if stamp ≠ 0 then stamp else env.now), file, line, function,
    LL_ERROR, rendered ++ sfx⟩, ?_, rfl, rendered ++ ": ", ?_⟩
  · rw [hstate]
    by_cases hc : 0 < s.max ∧ s.max ≤ s.count
    · have hlen : 1 ≤ s.q.length := by
        have hmc : (1 : Int) ≤ s.count := le_trans hc.1 hc.2
        rw [hwf] at hmc
        exact_mod_cast hmc
      cases hq : s.q with
      | nil => rw [hq] at hlen; simp at hlen
      | cons hd tl =>
        simp [log_queue_add, if_pos hc, hq, List.getLast?_concat]
    · simp [log_queue_add, if_neg hc, List.getLast?_concat]
  · rw [hsfx, ← String.append_assoc]

/-- C5 witness: dispatching `"x"` at `LL_PERROR` with errno 9 stores a record
with level `LL_ERROR` whose message ends in `strerror(9)`. -/
theorem C5_perror_roundtrip_witness :
    ∃ ll : LogLine,
      ((log_disp_queue sampleEnv 1 none 0 none LL_PERROR "x" [] ⟨[], 0, 0⟩
        ⟨9, []⟩).2.1).q.getLast? = some ll ∧
      ll.level = LL_ERROR ∧
      ∃ p : String, ll.message = p ++ sampleEnv.strerror 9 :=
  C5_perror_roundtrip sampleEnv 1 none 0 none "x" [] ⟨[], 0, 0⟩ ⟨9, []⟩
    (by decide) (by decide)

/-- `log_file_close` always leaves the handle NULL. -/
theorem log_file_close_fp (v : Bool) (st : FileState) :
    (log_file_close v st).fp = none := by
  cases h : st.fp <;> simp [log_file_close, h]

/-- `log_file_close` does not touch the filename. -/
theorem log_file_close_name (v : Bool) (st : FileState) :
    (log_file_close v st).name = st.name := by
  cases h : st.fp <;> simp [log_file_close, h]

/-- Closing the file trivially restores the invariant (handle NULL). -/
theorem fileInvariant_close (v : Bool) (st : FileState) :
    fileInvariant (log_file_close v st) := by
  intro hfp
  rw [log_file_close_fp] at hfp
  simp at hfp

/-- `log_file_open` preserves the invariant. -/
theorem fileInvariant_open (env : Env) (v ok : Bool) (st : FileState)
    (h : fileInvariant st) : fileInvariant (log_file_open env v ok st).2 := by
  cases hn : st.name with
  | none =>
    have hres : (log_file_open env v ok st).2 = { st with lastOpenOk := false } := by
      simp [log_file_open, hn]
    rw [hres]
    intro hfp
    have h2 := h hfp
    rw [hn] at h2
    simp at h2
  | some n =>
    cases ok with
    | true =>
      have hres : (log_file_open env v true st).2 =
          { (if st.fp.isSome then log_file_close false st else st) with
            fp := some (fileBanner env (if st.fp.isSome then log_file_close false st else st)),
            lastOpenOk := true } := by
        simp [log_file_open, hn]
      rw [hres]
      intro _
      refine ⟨?_, rfl⟩
      by_cases hfp : st.fp.isSome <;> simp [hfp, log_file_close_name, hn]
    | false =>
      have hres : (log_file_open env v false st).2 =
          { (if st.fp.isSome then log_file_close false st else st) with
            fp := none, lastOpenOk := false } := by
        simp [log_file_open, hn]
      rw [hres]
      intro hfp
      simp at hfp

/-- `log_file_set_level` preserves the invariant. -/
theorem fileInvariant_set_level (env : Env) (lvl : Int) (ok : Bool) (st : FileState)
    (h : fileInvariant st) : fileInvariant (log_file_set_level env lvl ok st).2 := by
  simp only [log_file_set_level]
  split_ifs with h1 h2 h3 h4
  · exact h
  · exact h
  · exact fileInvariant_close true _
  · exact fun hfp => h hfp
  · exact fileInvariant_open env true ok _ (fun hfp => h hfp)

/-- `log_file_set_filename` with a non-NULL name preserves the invariant. -/
theorem fileInvariant_set_filename_some (env : Env) (f : String) (ok : Bool)
    (st : FileState) (h : fileInvariant st) :
    fileInvariant (log_file_set_filename env (some f) ok st).2 := by
  simp only [log_file_set_filename]
  split_ifs with h1 h2
  · exact h
  · intro hfp
    simp [mutt_str_replace] at h2 hfp
    simp [h2] at hfp
  · exact fileInvariant_open env true ok _ (fun hfp => ⟨rfl, (h hfp).2⟩)

/-- `log_file_set_filename` with a NULL name preserves the invariant
PROVIDED the sink is not open (the claim's counterexample shows the open
case genuinely breaks it). -/
theorem fileInvariant_set_filename_none (env : Env) (ok : Bool) (st : FileState)
    (h : fileInvariant st) (hfp : st.fp = none) :
    fileInvariant (log_file_set_filename env none ok st).2 := by
  simp only [log_file_set_filename]
  split_ifs with h1 h2
  · exact h
  · intro hx
    simp [mutt_str_replace, hfp] at hx
  · exfalso
    apply h2
    simp [mutt_str_replace, hfp]

/-- `log_disp_file` preserves the invariant (it only appends to the file's
content; it never changes the handle's nullness, the name, or the ghost
flag). -/
theorem fileInvariant_disp_file (env : Env) (stamp : Int) (f : Option String)
    (l : Int) (fn : Option String) (lvl : Int) (fmt : String) (args : List String)
    (st : FileState) (w : W) (h : fileInvariant st) :
    fileInvariant (log_disp_file env stamp f l fn lvl fmt args st w).2.1 := by
  cases hfp : st.fp with
  | none => simpa [log_disp_file, hfp] using h
  | some content =>
    by_cases hflt : (lvl < LL_PERROR ∨ lvl > st.level)
    · simpa [log_disp_file, hfp, if_pos hflt] using h
    · have hsome : st.name.isSome ∧ st.lastOpenOk = true := h (by rw [hfp]; rfl)
      intro _
      simp only [log_disp_file, hfp, if_neg hflt]
      split_ifs <;> exact hsome

/-- One operation preserves the invariant, provided a NULL-name
`setFilename` is not executed while the sink is open. -/
theorem logStep_preserves_invariant (env : Env) (st : FileState) (op : LogOp)
    (h : fileInvariant st) (hop : opAllowed st op = true) :
    fileInvariant (logStep env st op) := by
  cases op with
  | setFilename f ok =>
    cases f with
    | none =>
      have hfp : st.fp = none := by
        simp [opAllowed] at hop
        cases hx : st.fp with
        | none => rfl
        | some c => rw [hx] at hop; simp at hop
      exact fileInvariant_set_filename_none env ok st h hfp
    | some f => exact fileInvariant_set_filename_some env f ok st h
  | setLevel l ok => exact fileInvariant_set_level env l ok st h
  | openF v ok => exact fileInvariant_open env v ok st h
  | close v => exact fileInvariant_close v st
  | dispatch stamp f line fn lvl fmt args w =>
    exact fileInvariant_disp_file env stamp f line fn lvl fmt args st w h

/-- Running a sequence of operations that never does a NULL-name
`setFilename` while open preserves the invariant. -/
theorem runOps_preserves_invariant (env : Env) : ∀ (ops : List LogOp) (st : FileState),
    fileInvariant st → goodOps env st ops = true →
    fileInvariant (runOps env st ops) := by
  intro ops
  induction ops with
  | nil => intro st h _; exact h
  | cons op rest ih =>
    intro st h hg
    rw [show goodOps env st (op :: rest)
        = (opAllowed st op && goodOps env (logStep env st op) rest) from rfl,
      Bool.and_eq_true] at hg
    exact ih _ (logStep_preserves_invariant env st op h hg.1) hg.2

/-- C1 (amended): for every sequence of operations (setFilename, setLevel,
open, close, dispatch) in which `setFilename` is never called with a NULL
name while the sink is open, the file handle is non-null only if the
filename is non-null and the most recent open succeeded.  (The excluded
case genuinely violates the invariant — see the counterexample: the
re-open triggered by `log_file_set_filename` returns -1 on a NULL name
WITHOUT closing the still-open handle.) -/
theorem C1_file_handle_invariant (env : Env) (ops : List LogOp)
    (h : goodOps env initFileState ops = true) :
    fileInvariant (runOps env initFileState ops) :=
  runOps_preserves_invariant env ops initFileState (fun hfp => by simp [initFileState] at hfp) h

/-- C1 witness: a set-name / open / dispatch / close run keeps the invariant. -/
theorem C1_file_handle_invariant_witness :
    fileInvariant (runOps sampleEnv initFileState
      [.setFilename (some "log") true, .openF true true,
       .dispatch 1 none 0 (some "f") 0 "hi" [] ⟨0, []⟩, .close true]) :=
  C1_file_handle_invariant sampleEnv
    [.setFilename (some "log") true, .openF true true,
     .dispatch 1 none 0 (some "f") 0 "hi" [] ⟨0, []⟩, .close true]
    (by decide)

/-- C1 counterexample: setFilename("log"); open; setFilename(NULL) leaves the
handle OPEN with a NULL filename — the claimed invariant is false for this
operation sequence. -/
theorem C1_file_handle_invariant_counterexample :
    ((runOps sampleEnv initFileState
      [.setFilename (some "log") true, .openF true true,
       .setFilename none true]).fp.isSome = true) ∧
    ((runOps sampleEnv initFileState
      [.setFilename (some "log") true, .openF true true,
       .setFilename none true]).name = none) ∧
    ¬ fileInvariant (runOps sampleEnv initFileState
      [.setFilename (some "log") true, .openF true true,
       .setFilename none true]) := by
  refine ⟨by decide, by decide, ?_⟩
  intro hinv
  have h1 : (runOps sampleEnv initFileState
      [.setFilename (some "log") true, .openF true true,
       .setFilename none true]).fp.isSome = true := by decide
  have h2 := (hinv h1).1
  revert h2
  decide

/-- C9: `log_file_set_filename` is a no-op returning 0 (success) when the
new name compares equal to the current one under mutt's NULL-safe strcmp
(in particular when both are NULL); when the name differs and the sink is
not open it records the new name but returns -1 (failure); when the name
differs and the sink is open it triggers a re-open with the new name and
returns 0 (success), whatever the re-open itself does. -/
theorem C9_set_filename (env : Env) (st : FileState) (file : Option String) (ok : Bool) :
    (mutt_str_strcmp st.name file = 0 →
      log_file_set_filename env file ok st = (0, st)) ∧
    (mutt_str_strcmp st.name file ≠ 0 → st.fp = none →
      log_file_set_filename env file ok st = (-1, { st with name := file })) ∧
    (mutt_str_strcmp st.name file ≠ 0 → st.fp.isSome = true →
      log_file_set_filename env file ok st =
        (0, (log_file_open env true ok { st with name := file }).2)) := by
  refine ⟨?_, ?_, ?_⟩
  · intro h
    simp [log_file_set_filename, h]
  · intro h hfp
    simp [log_file_set_filename, h, mutt_str_replace, hfp]
  · intro h hfp
    obtain ⟨c, hc⟩ := Option.isSome_iff_exists.mp hfp
    simp [log_file_set_filename, h, mutt_str_replace, hc]

/-- C9 witness: (a) both names NULL — no-op success; (b) an open sink and a
different name — re-open is triggered and 0 returned. -/
theorem C9_set_filename_witness :
    log_file_set_filename sampleEnv none true initFileState = (0, initFileState) ∧
    log_file_set_filename sampleEnv (some "new") true openSt0 =
      (0, (log_file_open sampleEnv true true { openSt0 with name := some "new" }).2) := by
  constructor
  · exact (C9_set_filename sampleEnv initFileState none true).1 (by decide)
  · exact (C9_set_filename sampleEnv openSt0 (some "new") true).2.2 (by decide) (by decide)

/-- C2 (code bug): a MESSAGE-level dispatch through an open file sink writes
15 characters (`[TS]<M> f() hi\n` — 12-character prefix, 2-character
message, newline) but returns 3: the source overwrites the accumulated
prefix count with a plain `ret = vfprintf(...)` (logging.c line 255) and
never counts the `LL_PERROR` suffix, contradicting its own
`@retval >0 ... number of characters written` documentation and the claim. -/
theorem C2_return_undercounts :
    (log_disp_file sampleEnv 1 none 0 (some "f") 0 "hi" [] openSt0 ⟨0, []⟩).1 = 3 ∧
    ((log_disp_file sampleEnv 1 none 0 (some "f") 0 "hi" [] openSt0 ⟨0, []⟩).2.1.fp.getD "")
      = "[TS]<M> f() hi\n" ∧
    ((log_disp_file sampleEnv 1 none 0 (some "f") 0 "hi" [] openSt0 ⟨0, []⟩).2.1.fp.getD "").length
      = 15 ∧
    (log_disp_file sampleEnv 1 none 0 (some "f") 0 "hi" [] openSt0 ⟨0, []⟩).1 ≠
      (((log_disp_file sampleEnv 1 none 0 (some "f") 0 "hi" [] openSt0 ⟨0, []⟩).2.1.fp.getD "").length : Int) := by
  refine ⟨by decide, by decide, by decide, by decide⟩

/-- C8 (code bug): with the sink open at threshold 1, a dispatch at level 1
(= T) passes the filter and writes its 12-character prefix to the file, yet
returns 0 — indistinguishable from "filtered" — because of the same
return-value accounting slip as C2; the claim's other two boundary cases
hold: level T+1 = 2 and level PERROR−1 = −4 are filtered to 0 with nothing
written. -/
theorem C8_filter_boundary :
    (log_disp_file sampleEnv 1 none 0 (some "f") 1 "" [] openSt1 ⟨0, []⟩).1 = 0 ∧
    ((log_disp_file sampleEnv 1 none 0 (some "f") 1 "" [] openSt1 ⟨0, []⟩).2.1.fp.getD "")
      = "[TS]<1> f() " ∧
    ((log_disp_file sampleEnv 1 none 0 (some "f") 1 "" [] openSt1 ⟨0, []⟩).2.1.fp.getD "").length
      = 12 ∧
    (log_disp_file sampleEnv 1 none 0 (some "f") 2 "hi" [] openSt1 ⟨0, []⟩).1 = 0 ∧
    (log_disp_file sampleEnv 1 none 0 (some "f") 2 "hi" [] openSt1 ⟨0, []⟩).2.1 = openSt1 ∧
    (log_disp_file sampleEnv 1 none 0 (some "f") (LL_PERROR - 1) "hi" [] openSt1 ⟨0, []⟩).1 = 0 ∧
    (log_disp_file sampleEnv 1 none 0 (some "f") (LL_PERROR - 1) "hi" [] openSt1 ⟨0, []⟩).2.1 = openSt1 := by
  refine ⟨by decide, by decide, by decide, by decide, by decide, by decide, by decide⟩

/-- C3 (code bug): the file sink really does use the errno captured on entry
— for a PERROR record the error text appended to the file is `strerror` of
`w.errno` as it was when the call began, whatever the formatting calls later
install. -/
theorem log_disp_file_entry_errno (env : Env) (stamp : Int) (f : Option String)
    (l : Int) (fn : Option String) (fmt : String) (args : List String)
    (st : FileState) (w : W) (c : String)
    (hfp : st.fp = some c) (hT : LL_PERROR ≤ st.level) :
    ∃ pre : String,
      (log_disp_file env stamp f l fn LL_PERROR fmt args st w).2.1.fp =
        some (pre ++ env.strerror w.errno ++ "\n") := by
  have hflt : ¬(LL_PERROR < LL_PERROR ∨ LL_PERROR > st.level) := by
    intro hc
    rcases hc with hc | hc
    · omega
    · omega
  refine ⟨c ++ ("[" ++ env.tsFmt (if stamp = 0 then env.now else stamp) ++ "]<" ++
    (levelAbbr LL_PERROR).toString ++ "> " ++ fn.getD "UNKNOWN" ++ "() ")
    ++ renderFmt fmt.data args ++ ": ", ?_⟩
  simp [log_disp_file, hfp, if_neg hflt, if_neg (not_lt.mpr hT)]

/-- C3 (code bug): the CONSOLE sink derives the error description from the
errno value read AFTER the formatting work, not the one outstanding at call
entry.  Concretely: entering `log_disp_stderr` at level `LL_PERROR` with
errno 5, where the `vsnprintf` formatting call installs errno 7 (oracle
`clobbers = [7]`), produces the stderr text `m: E7\n` — `strerror(7)`, the
clobbered value — and not `m: E5\n` built from the entry errno 5, which is
what the claim requires.  (`log_disp_file_entry_errno` shows the file sink
DOES use the entry errno, and C5 covers the queue sink; the console sink is
the odd one out, reading errno only at source line 457, after `vsnprintf`
and the `log_disp_file` forward.) -/
theorem C3_stderr_errno_clobbered :
    (log_disp_stderr sampleEnv false 1 none 0 none LL_PERROR "m" [] initFileState
      ⟨5, [7]⟩).2.2.1 = "m" ++ ": " ++ sampleEnv.strerror 7 ++ "\n" ∧
    (log_disp_stderr sampleEnv false 1 none 0 none LL_PERROR "m" [] initFileState
      ⟨5, [7]⟩).2.2.1 ≠ "m" ++ ": " ++ sampleEnv.strerror 5 ++ "\n" := by
  refine ⟨by decide, by decide⟩
